import Mathlib

/-!
Verification of the availability pipeline of `get-availability.ts`
(repository CatChen/agentic-browser).

The development shallowly embeds the script's core functions:

* `offsetToTime` — the time codec (base "HH:MM" plus signed minute offset);
* `extractSlots` — the slot decoder over the availability response shape;
* the HAR-mode entry filter and the per-entry base-time threading of
  `runHarMode`;
* the variable merge of `runLiveMode` (spread of the new variables over the
  captured `variables` record);
* the control-flow skeleton of `runLiveMode` (browser acquisition/release on
  every exit path).

JavaScript runtime builtins used by the script (`String.prototype.split`,
`String.prototype.includes`, `String.prototype.padStart`, `Number`,
`JSON.parse`) are not repository code; they are embedded as explicit
structural functions over `List Char`, or — for `JSON.parse` — as the already
parsed data carried alongside the raw text.  JavaScript numbers appearing here
are integers throughout (minute offsets, day offsets, party sizes, HTTP
status codes), so they are modelled as `Int`/`Nat`; the `%` of JavaScript is
the truncating remainder `Int.tmod`.
-/

/-! ## JavaScript string builtins, embedded over `List Char` -/

/-- Decimal digits of `n` (the JS `String(n)` of a nonnegative integer),
with explicit fuel so the definition is structural and kernel-reducible. -/
def natToCharsAux : Nat → Nat → List Char
  | 0, _ => []
  | fuel + 1, n =>
      if n < 10 then [Char.ofNat (48 + n)]
      else natToCharsAux fuel (n / 10) ++ [Char.ofNat (48 + n % 10)]

/-- The JS `String(n)` for a nonnegative integer `n`. -/
def natToChars (n : Nat) : List Char := natToCharsAux (n + 1) n

/-- The JS `s.padStart(2, '0')`. -/
def padStart2 (l : List Char) : List Char := List.replicate (2 - l.length) '0' ++ l

/-- The JS `s.split(sep)` for a single-character separator. -/
def splitChar (sep : Char) : List Char → List (List Char)
  | [] => [[]]
  | c :: rest =>
      let r := splitChar sep rest
      if c == sep then [] :: r
      else
        match r with
        | [] => [[c]]
        | cur :: more => (c :: cur) :: more

def toNumberAux : List Char → Nat → Option Nat
  | [], acc => some acc
  | c :: cs, acc =>
      if 48 ≤ c.toNat ∧ c.toNat ≤ 57 then toNumberAux cs (acc * 10 + (c.toNat - 48))
      else none

/-- The JS `Number(s)` restricted to nonempty strings of decimal digits —
the only inputs the script feeds it when the base time is well-formed.
(`Number` on other strings yields `NaN` or exotic parses; those inputs are
outside every claim considered here and are mapped to `none`.) -/
def toNumber? : List Char → Option Nat
  | [] => none
  | l => toNumberAux l 0

/-- `baseTime.split(':').map(Number)`, keeping the first two components —
exactly the destructuring `const [h, m] = ...` of the script. -/
def parseHM (s : String) : Option Nat × Option Nat :=
  let parts := splitChar ':' s.data
  ((parts[0]?).bind toNumber?, (parts[1]?).bind toNumber?)

/-- The template `` `${String(hh).padStart(2,'0')}:${String(mm).padStart(2,'0')}` ``. -/
def formatHM (h m : Nat) : String :=
  ⟨padStart2 (natToChars h) ++ ':' :: padStart2 (natToChars m)⟩

/-! ## TimeCodec: `offsetToTime` (get-availability.ts, lines 82–89) -/

/-- `((totalMinutes % (24 * 60)) + 24 * 60) % (24 * 60)` with the JS
truncating `%`. -/
def wrapMinutes (totalMinutes : Int) : Int :=
  ((totalMinutes.tmod (24 * 60)) + 24 * 60).tmod (24 * 60)

/-- `offsetToTime(baseTime, timeOffsetMinutes)`.  `wrapped` is nonnegative
(proved below), so the JS `Math.floor(wrapped / 60)` agrees with the
Euclidean `/` used here, and `String(...)` of both components is
`natToChars` of the corresponding `Nat`. -/
def offsetToTime (baseTime : String) (timeOffsetMinutes : Int) : String :=
  let h : Nat := (parseHM baseTime).1.getD 0
  let m : Nat := (parseHM baseTime).2.getD 0
  let wrapped : Int := wrapMinutes ((h : Int) * 60 + (m : Int) + timeOffsetMinutes)
  formatHM (wrapped / 60).toNat (wrapped.tmod 60).toNat

/-- A well-formed "HH:MM" string in [00:00, 23:59]: the zero-padded rendering
of some hour below 24 and minute below 60. -/
def validHHMM (s : String) : Prop := ∃ h m, h < 24 ∧ m < 60 ∧ s = formatHM h m

theorem wrapMinutes_eq (t : Int) :
    wrapMinutes t = (t % 1440 + 1440) % 1440 ∧ 0 ≤ wrapMinutes t ∧ wrapMinutes t < 1440 := by
  unfold wrapMinutes
  cases t with
  | ofNat n =>
    have hnn : (0 : Int) ≤ Int.ofNat n := Int.ofNat_nonneg n
    rw [Int.tmod_eq_emod hnn (by norm_num)]
    have h2 : (0 : Int) ≤ Int.ofNat n % (24 * 60) + 24 * 60 := by
      have := Int.emod_nonneg (Int.ofNat n) (b := 24 * 60) (by norm_num)
      omega
    rw [Int.tmod_eq_emod h2 (by norm_num)]
    omega
  | negSucc m =>
    have e1 : Int.tmod (Int.negSucc m) (24 * 60) = -(((m + 1) % 1440 : Nat) : Int) := rfl
    rw [e1]
    have hk : (m + 1) % 1440 < 1440 := Nat.mod_lt _ (by omega)
    have h2 : (0 : Int) ≤ -(((m + 1) % 1440 : Nat) : Int) + 24 * 60 := by omega
    rw [Int.tmod_eq_emod h2 (by norm_num)]
    have e2 : Int.negSucc m = -((m : Int) + 1) := by rw [Int.negSucc_eq]
    rw [e2]
    omega

theorem offsetToTime_unfold (s : String) (off : Int) :
    offsetToTime s off
      = formatHM
          ((wrapMinutes (((parseHM s).1.getD 0 : Nat) * 60 + ((parseHM s).2.getD 0 : Nat) + off)) / 60).toNat
          ((wrapMinutes (((parseHM s).1.getD 0 : Nat) * 60 + ((parseHM s).2.getD 0 : Nat) + off)).tmod 60).toNat := rfl

/-- C1: for every base time that parses as hour `h < 24` and minute `m < 60`
and every integer offset, `offsetToTime` returns the zero-padded rendering of
`((h*60 + m + off) % 1440 + 1440) % 1440` split into hours and minutes; the
result is always a well-formed "HH:MM" string, and the three concrete
examples of the specification hold. -/
theorem offsetToTime_spec (s : String) (h m : Nat)
    (hp : parseHM s = (some h, some m)) (hh : h < 24) (hm : m < 60) (off : Int) :
    offsetToTime s off
        = formatHM (((((h : Int) * 60 + (m : Int) + off) % 1440 + 1440) % 1440).toNat / 60)
                   (((((h : Int) * 60 + (m : Int) + off) % 1440 + 1440) % 1440).toNat % 60)
      ∧ validHHMM (offsetToTime s off)
      ∧ offsetToTime "19:00" 0 = "19:00"
      ∧ offsetToTime "23:30" 90 = "01:00"
      ∧ offsetToTime "00:00" (-30) = "23:30" := by
  obtain ⟨heq, h0, h1⟩ := wrapMinutes_eq ((h : Int) * 60 + (m : Int) + off)
  have hmain : offsetToTime s off
      = formatHM ((wrapMinutes ((h : Int) * 60 + (m : Int) + off)) / 60).toNat
                 ((wrapMinutes ((h : Int) * 60 + (m : Int) + off)).tmod 60).toNat := by
    rw [offsetToTime_unfold, hp]
    rfl
  rw [heq] at hmain h0 h1
  have e1 : ((((h : Int) * 60 + (m : Int) + off) % 1440 + 1440) % 1440 / 60).toNat
      = (((((h : Int) * 60 + (m : Int) + off) % 1440 + 1440) % 1440).toNat / 60) := by omega
  have e2 : ((((h : Int) * 60 + (m : Int) + off) % 1440 + 1440) % 1440).tmod 60
      = ((((h : Int) * 60 + (m : Int) + off) % 1440 + 1440) % 1440) % 60 :=
    Int.tmod_eq_emod h0 (by norm_num)
  have e2' : (((((h : Int) * 60 + (m : Int) + off) % 1440 + 1440) % 1440).tmod 60).toNat
      = (((((h : Int) * 60 + (m : Int) + off) % 1440 + 1440) % 1440).toNat % 60) := by
    rw [e2]; omega
  refine ⟨by rw [hmain, e1, e2'], ?_, by decide, by decide, by decide⟩
  refine ⟨_, _, ?_, ?_, by rw [hmain, e1, e2']⟩
  · omega
  · omega

/-- Closed instance of C1 at base time "19:00" and offset 90 minutes. -/
theorem offsetToTime_spec_witness :
    offsetToTime "19:00" 90
        = formatHM (((((19 : Int) * 60 + (0 : Int) + 90) % 1440 + 1440) % 1440).toNat / 60)
                   (((((19 : Int) * 60 + (0 : Int) + 90) % 1440 + 1440) % 1440).toNat % 60)
      ∧ validHHMM (offsetToTime "19:00" 90) := by
  have H := offsetToTime_spec "19:00" 19 0 rfl (by decide) (by decide) 90
  exact ⟨H.1, H.2.1⟩

/-! ## SlotDecoder: response shape and `extractSlots`
(get-availability.ts, lines 92–134) -/

/-- A slot of the availability response.  All three fields are optional in
the response JSON; `timeOffsetMinutes` is `some` exactly when the field is
present and numeric (the `typeof slot.timeOffsetMinutes === 'number'` test
of the source). -/
structure AvailabilitySlot where
  isAvailable : Option Bool
  timeOffsetMinutes : Option Int
  type : Option String
deriving DecidableEq

structure AvailabilityDay where
  dayOffset : Int
  slots : Option (List AvailabilitySlot)
deriving DecidableEq

structure AvailabilityEntry where
  restaurantId : Option Int
  availabilityDays : Option (List AvailabilityDay)
deriving DecidableEq

structure ResponseData where
  availability : Option (List AvailabilityEntry)
deriving DecidableEq

structure AvailabilityResponse where
  data : Option ResponseData
deriving DecidableEq

structure DecodedSlot where
  time : String
  type : String
deriving DecidableEq

/-- `res.data?.availability?.[0]?.availabilityDays ?? []`. -/
def daysOf (res : AvailabilityResponse) : List AvailabilityDay :=
  (((res.data.bind ResponseData.availability).bind (fun l => l[0]?)).bind
    AvailabilityEntry.availabilityDays).getD []

/-- `days.find((d) => d.dayOffset === 0) ?? days[0]`. -/
def selectDay (days : List AvailabilityDay) : Option AvailabilityDay :=
  match days.find? (fun d => d.dayOffset == 0) with
  | some d => some d
  | none => days[0]?

/-- The slot filter of the decoding loop:
`slot.isAvailable && typeof slot.timeOffsetMinutes === 'number'`. -/
def slotIncluded (s : AvailabilitySlot) : Bool :=
  s.isAvailable.getD false && s.timeOffsetMinutes.isSome

/-- The record pushed for an included slot; under the `slotIncluded` guard
`timeOffsetMinutes` is `some`, so the `getD 0` projection is exact. -/
def decodeOne (baseTime : String) (s : AvailabilitySlot) : DecodedSlot :=
  { time := offsetToTime baseTime (s.timeOffsetMinutes.getD 0),
    type := s.type.getD "Standard" }

/-- The `for (const slot of day0.slots)` accumulation loop. -/
def decodeSlots (baseTime : String) : List AvailabilitySlot → List DecodedSlot
  | [] => []
  | s :: rest =>
      if s.isAvailable.getD false && s.timeOffsetMinutes.isSome then
        decodeOne baseTime s :: decodeSlots baseTime rest
      else decodeSlots baseTime rest

/-- `extractSlots(res, baseTime, requestedDate)`; the `requestedDate`
parameter is accepted but never read, exactly as in the source. -/
def extractSlots (res : AvailabilityResponse) (baseTime : String)
    (requestedDate : String) : List DecodedSlot :=
  match selectDay (daysOf res) with
  | none => []
  | some day0 =>
      match day0.slots with
      | none => []
      | some slots => decodeSlots baseTime slots

theorem decodeSlots_filter_map (bt : String) (l : List AvailabilitySlot) :
    decodeSlots bt l = (l.filter slotIncluded).map (decodeOne bt) := by
  induction l with
  | nil => rfl
  | cons s rest ih =>
      have hs : (s.isAvailable.getD false && s.timeOffsetMinutes.isSome) = slotIncluded s := rfl
      simp only [decodeSlots, hs, List.filter_cons]
      cases h : slotIncluded s
      · simp [h, ih]
      · simp [h, ih]

theorem extractSlots_eq_selected (res : AvailabilityResponse) (bt rd : String) :
    extractSlots res bt rd
      = decodeSlots bt (((selectDay (daysOf res)).bind AvailabilityDay.slots).getD []) := by
  unfold extractSlots
  cases hd : selectDay (daysOf res) with
  | none => rfl
  | some day0 =>
      cases hs : day0.slots with
      | none =>
          simp only [Option.some_bind, hs, Option.getD_none]
          rfl
      | some slots => simp [hs]

/-- The slots of the day `extractSlots` decodes (empty when no day is
selected or the selected day has no slot array). -/
def selectedSlots (res : AvailabilityResponse) : List AvailabilitySlot :=
  ((selectDay (daysOf res)).bind AvailabilityDay.slots).getD []

/-- The concrete response of the specification's C2 example: a day at offset
1 followed by the requested day at offset 0 holding one available slot at
offset 0 of type "Standard" and one unavailable slot at offset 30. -/
def exampleResponse : AvailabilityResponse :=
  { data := some
      { availability := some
          [{ restaurantId := some 1,
             availabilityDays := some
               [{ dayOffset := 1,
                  slots := some [{ isAvailable := some true, timeOffsetMinutes := some 0,
                                   type := some "Standard" }] },
                { dayOffset := 0,
                  slots := some [{ isAvailable := some true, timeOffsetMinutes := some 0,
                                   type := some "Standard" },
                                 { isAvailable := some false, timeOffsetMinutes := some 30,
                                   type := none }] }] }] } }

/-- C2: a slot of the selected day is included exactly when `isAvailable` is
true and `timeOffsetMinutes` is present and numeric, with `type` defaulting
to "Standard" and the output in input order (filter-then-map, no
re-sorting); on the specification's concrete response with base time "19:00"
the result is exactly one slot `19:00 / Standard`. -/
theorem extractSlots_filter_spec (res : AvailabilityResponse) (bt rd : String) :
    extractSlots res bt rd = ((selectedSlots res).filter slotIncluded).map (decodeOne bt)
      ∧ extractSlots exampleResponse "19:00" rd
          = [{ time := "19:00", type := "Standard" }] := by
  constructor
  · rw [extractSlots_eq_selected, decodeSlots_filter_map]; rfl
  · rfl

/-- C3: the decoded day is the first day whose `dayOffset` is 0 when one
exists, and otherwise the first day of the sequence; `extractSlots` decodes
exactly the slots of that selected day. -/
theorem extractSlots_day_selection (res : AvailabilityResponse) (bt rd : String) :
    extractSlots res bt rd
        = decodeSlots bt (((selectDay (daysOf res)).bind AvailabilityDay.slots).getD [])
      ∧ ((∃ d ∈ daysOf res, d.dayOffset = 0) →
          ∃ d, selectDay (daysOf res) = some d ∧ d.dayOffset = 0 ∧ d ∈ daysOf res)
      ∧ ((∀ d ∈ daysOf res, d.dayOffset ≠ 0) →
          selectDay (daysOf res) = (daysOf res)[0]?) := by
  refine ⟨extractSlots_eq_selected res bt rd, ?_, ?_⟩
  · rintro ⟨d, hd, hd0⟩
    have hsome : ((daysOf res).find? (fun x => x.dayOffset == 0)).isSome := by
      rw [List.find?_isSome]
      exact ⟨d, hd, by simpa using hd0⟩
    obtain ⟨d0, hfind⟩ := Option.isSome_iff_exists.mp hsome
    refine ⟨d0, ?_, ?_, ?_⟩
    · unfold selectDay; rw [hfind]
    · have := List.find?_some hfind
      simpa using this
    · exact List.mem_of_find?_eq_some hfind
  · intro hall
    have hnone : (daysOf res).find? (fun x => x.dayOffset == 0) = none := by
      rw [List.find?_eq_none]
      intro x hx
      simpa using hall x hx
    unfold selectDay
    rw [hnone]

/-- Closed instance of C3: on the example response the day at offset 0 is
selected, and on a response whose days all have nonzero offsets the first
day is selected. -/
theorem extractSlots_day_selection_witness :
    (∃ d, selectDay (daysOf exampleResponse) = some d ∧ d.dayOffset = 0 ∧
       d ∈ daysOf exampleResponse) :=
  (extractSlots_day_selection exampleResponse "19:00" "").2.1 (by decide)

/-- C7: `extractSlots` is a total function (it can never fail), and it
returns the empty sequence whenever the response has no days — i.e.
`availabilityDays` is empty or absent at any level of the optional chain —
or the selected day has no slots. -/
theorem extractSlots_empty_spec (res : AvailabilityResponse) (bt rd : String) :
    (daysOf res = [] → extractSlots res bt rd = [])
      ∧ (∀ d, selectDay (daysOf res) = some d → d.slots.getD [] = [] →
          extractSlots res bt rd = []) := by
  constructor
  · intro hd
    unfold extractSlots selectDay
    rw [hd]
    rfl
  · intro d hsel hslots
    rw [extractSlots_eq_selected, hsel]
    show decodeSlots bt ((d.slots).getD []) = []
    cases hs : d.slots with
    | none => rfl
    | some l =>
        rw [hs] at hslots
        simp only [Option.getD_some] at hslots ⊢
        subst hslots
        rfl

/-- The C7 example input: a response whose availability entry carries no
`availabilityDays` field at all. -/
def noDaysResponse : AvailabilityResponse :=
  { data := some { availability := some [{ restaurantId := some 1, availabilityDays := none }] } }

/-- Closed instance of C7: on a response with absent `availabilityDays` the
result is the empty sequence. -/
theorem extractSlots_empty_spec_witness :
    extractSlots noDaysResponse "19:00" "2026-02-26" = [] :=
  (extractSlots_empty_spec noDaysResponse "19:00" "2026-02-26").1 (by decide)

/-- C9: `extractSlots` does not depend on its `requestedDate` argument — any
two values of that argument yield identical outputs. -/
theorem extractSlots_requestedDate_irrelevant (res : AvailabilityResponse)
    (bt d1 d2 : String) : extractSlots res bt d1 = extractSlots res bt d2 := rfl

/-! ## HarSource: entry filtering and base-time threading of `runHarMode`
(get-availability.ts, lines 160–222) -/

/-- `charsLead pat t` — `pat` begins `t` (helper for the JS `includes`). -/
def charsLead : List Char → List Char → Bool
  | [], _ => true
  | _ :: _, [] => false
  | p :: ps, t :: ts => p == t && charsLead ps ts

/-- `charsContain pat t` — `pat` occurs contiguously in `t`. -/
def charsContain : List Char → List Char → Bool
  | pat, [] => pat.isEmpty
  | pat, t :: ts => charsLead pat (t :: ts) || charsContain pat ts

/-- The JS `s.includes(pat)`. -/
def strIncludes (s pat : String) : Bool := charsContain pat.data s.data

/-- The `variables` of the JSON-parsed request body, as far as `runHarMode`
reads them. -/
structure VarsJson where
  time : Option String
  date : Option String
deriving DecidableEq

structure PostData where
  text : Option String
deriving DecidableEq

/-- A HAR request.  `parsedVars` models the outcome of the JS
`JSON.parse(postData.text).variables` (the parser itself is a runtime
builtin): `none` when the body is absent or not valid JSON, `some` when the
parse succeeds. -/
structure HarRequest where
  method : Option String
  url : Option String
  postData : Option PostData
  parsedVars : Option VarsJson
deriving DecidableEq

structure HarContent where
  text : Option String
deriving DecidableEq

structure HarResponse where
  content : Option HarContent
deriving DecidableEq

structure HarEntry where
  request : Option HarRequest
  response : Option HarResponse
deriving DecidableEq

/-- `entry.request?.postData?.text`. -/
def entryBodyText (e : HarEntry) : Option String :=
  (e.request.bind HarRequest.postData).bind PostData.text

/-- The literal date filter pattern `"date":"<filterDate>"`. -/
def datePattern (filterDate : String) : String := "\"date\":\"" ++ filterDate ++ "\""

def intToString (n : Int) : String :=
  if n < 0 then ⟨'-' :: natToChars (-n).toNat⟩ else ⟨natToChars n.toNat⟩

/-- The literal party filter pattern `"partySize":<filterParty>`. -/
def partyPattern (filterParty : Int) : String := "\"partySize\":" ++ intToString filterParty

/-- The entry predicate of `entries.filter(...)` in `runHarMode`: the chain
of early `return false` tests, written as one conjunction.  Note that each
optional-filter test rejects only when the request body text is present and
truthy — a falsy body short-circuits the `&&` and the entry passes. -/
def entryMatches (filterDate : String) (filterParty : Int) (e : HarEntry) : Bool :=
  match e.request with
  | none => false
  | some req =>
      let bodyText := (req.postData.bind PostData.text).getD ""
      (req.method == some "POST")
      && ((req.url.map (fun u => strIncludes u "RestaurantsAvailability")).getD false)
      && (((e.response.bind HarResponse.content).bind HarContent.text).getD "" != "")
      && !((filterDate != "") && (bodyText != "")
            && !(strIncludes bodyText (datePattern filterDate)))
      && !(decide (0 < filterParty) && (bodyText != "")
            && !(strIncludes bodyText (partyPattern filterParty)))

/-- `har.log.entries.filter(...)`. -/
def harFilter (filterDate : String) (filterParty : Int) (entries : List HarEntry) :
    List HarEntry :=
  entries.filter (entryMatches filterDate filterParty)

/-- The structural part of the match (POST, target operation in the URL,
non-empty response body) without the optional filters. -/
def entryShapeOk (e : HarEntry) : Bool :=
  (match e.request with
   | none => false
   | some req =>
       (req.method == some "POST")
       && ((req.url.map (fun u => strIncludes u "RestaurantsAvailability")).getD false))
  && (((e.response.bind HarResponse.content).bind HarContent.text).getD "" != "")

/-- Body of the HAR loop that updates `baseTime` (declared once, outside the
loop): the new value after processing `e` starting from `bt`. -/
def stepBaseTime (bt : String) (e : HarEntry) : String :=
  match entryBodyText e with
  | none => bt
  | some b =>
      if b != "" then
        match e.request.bind HarRequest.parsedVars with
        | none => bt
        | some vars =>
            match vars.time with
            | none => bt
            | some t => if t != "" then t else bt
      else bt

/-- The `time` variable successfully extracted from an entry: body present
and truthy, JSON parse succeeded, and `variables.time` truthy. -/
def entryTime (e : HarEntry) : Option String :=
  match entryBodyText e with
  | none => none
  | some b =>
      if b != "" then
        match e.request.bind HarRequest.parsedVars with
        | none => none
        | some vars =>
            match vars.time with
            | none => none
            | some t => if t != "" then some t else none
      else none

/-- The base time in effect when each matched entry is decoded: the running
`baseTime` value at each loop iteration, starting from the initial
`'19:00'`. -/
def baseTimesUsed (bt : String) : List HarEntry → List String
  | [] => []
  | e :: rest =>
      let bt2 := stepBaseTime bt e
      bt2 :: baseTimesUsed bt2 rest

theorem stepBaseTime_eq (bt : String) (e : HarEntry) :
    stepBaseTime bt e = (entryTime e).getD bt := by
  unfold stepBaseTime entryTime
  cases hbt : entryBodyText e with
  | none => rfl
  | some b =>
      by_cases hb : b = ""
      · simp [hb]
      · cases hpv : e.request.bind HarRequest.parsedVars with
        | none => simp [hb, hpv]
        | some vars =>
            cases hvt : vars.time with
            | none => simp [hb, hpv, hvt]
            | some t => by_cases ht : t = "" <;> simp [hb, hpv, hvt, ht]

/-- A matched entry whose body parses with `variables.time = "18:00"`. -/
def timedEntry : HarEntry :=
  { request := some
      { method := some "POST",
        url := some "https://www.opentable.com/dapi/fe/gql?optype=query&opname=RestaurantsAvailability",
        postData := some { text := some "\"time\":\"18:00\"" },
        parsedVars := some { time := some "18:00", date := some "2026-02-26" } },
    response := some { content := some { text := some "availability-json" } } }

/-- A matched entry with no request body at all (hence no `time`
variable). -/
def bodylessEntry : HarEntry :=
  { request := some
      { method := some "POST",
        url := some "https://www.opentable.com/dapi/fe/gql?optype=query&opname=RestaurantsAvailability",
        postData := none,
        parsedVars := none },
    response := some { content := some { text := some "availability-json" } } }

/-- C5 counterexample: after an earlier matched entry set the running
`baseTime` to "18:00", a later entry whose request body is absent is decoded
with base time "18:00", not the claimed "19:00" — `baseTime` is declared
outside the loop and carries over. -/
theorem har_baseTime_cex :
    baseTimesUsed "19:00" [timedEntry, bodylessEntry] = ["18:00", "18:00"]
      ∧ entryBodyText bodylessEntry = none
      ∧ (baseTimesUsed "19:00" [timedEntry, bodylessEntry])[1]? ≠ some "19:00" := by
  decide

theorem getLast?_getD_cons {α : Type} (a : α) (F : List α) (d : α) :
    ((a :: F).getLast?).getD d = (F.getLast?).getD a := by
  cases F with
  | nil => rfl
  | cons b fs =>
      rw [List.getLast?_cons_cons]
      obtain ⟨x, hx⟩ := Option.isSome_iff_exists.mp
        (List.getLast?_isSome.mpr (List.cons_ne_nil b fs))
      rw [hx]
      rfl

theorem baseTimesUsed_get? (d : String) (l : List HarEntry) (k : Nat)
    (hk : k < l.length) :
    (baseTimesUsed d l)[k]?
      = some ((((l.take (k + 1)).filterMap entryTime).getLast?).getD d) := by
  induction l generalizing d k with
  | nil => simp at hk
  | cons e rest ih =>
      have hbu : baseTimesUsed d (e :: rest)
          = stepBaseTime d e :: baseTimesUsed (stepBaseTime d e) rest := rfl
      cases k with
      | zero =>
          rw [hbu, List.getElem?_cons_zero, List.take_succ_cons, List.take_zero,
            stepBaseTime_eq]
          cases ht : entryTime e with
          | none => simp [List.filterMap, ht]
          | some t => simp [List.filterMap, ht]
      | succ k =>
          have hk' : k < rest.length := by simpa using hk
          rw [hbu, List.getElem?_cons_succ, ih (stepBaseTime d e) k hk',
            List.take_succ_cons, List.filterMap_cons, stepBaseTime_eq]
          cases ht : entryTime e with
          | none => simp [ht]
          | some t => simp [ht, getLast?_getD_cons]

/-- C5 (amended): the base time used to decode the k-th matched entry is the
`time` variable most recently extracted from entries 0..k (body present,
JSON parse succeeded, `time` truthy), and is "19:00" only when no entry so
far yielded one — the running `baseTime` of the loop persists across
iterations rather than resetting per entry. -/
theorem har_baseTime_spec (l : List HarEntry) (k : Nat) (hk : k < l.length) :
    (baseTimesUsed "19:00" l)[k]?
      = some ((((l.take (k + 1)).filterMap entryTime).getLast?).getD "19:00") :=
  baseTimesUsed_get? "19:00" l k hk

/-- Closed instance of the amended C5 on the concrete two-entry log. -/
theorem har_baseTime_spec_witness :
    (baseTimesUsed "19:00" [timedEntry, bodylessEntry])[1]?
      = some (((([timedEntry, bodylessEntry].take 2).filterMap entryTime).getLast?).getD
          "19:00") :=
  har_baseTime_spec [timedEntry, bodylessEntry] 1 (by decide)

/-- C6 counterexample: an entry that otherwise matches (POST, target
operation in the URL, non-empty response body) but has no request body text
at all passes an active date filter, although its (absent) body does not
contain the literal pattern — the filter conjunct short-circuits on the
falsy body. -/
theorem har_filter_cex :
    entryMatches "2026-02-26" 0 bodylessEntry = true
      ∧ entryBodyText bodylessEntry = none
      ∧ strIncludes ((entryBodyText bodylessEntry).getD "") (datePattern "2026-02-26")
          = false := by
  decide

/-- A matched entry whose raw body contains `"date":"2026-02-26"`. -/
def datedEntryA : HarEntry :=
  { request := some
      { method := some "POST",
        url := some "https://www.opentable.com/dapi/fe/gql?optype=query&opname=RestaurantsAvailability",
        postData := some { text := some "\"date\":\"2026-02-26\",\"partySize\":4" },
        parsedVars := some { time := none, date := some "2026-02-26" } },
    response := some { content := some { text := some "availability-json" } } }

/-- A matched entry whose raw body carries a different date. -/
def datedEntryB : HarEntry :=
  { request := some
      { method := some "POST",
        url := some "https://www.opentable.com/dapi/fe/gql?optype=query&opname=RestaurantsAvailability",
        postData := some { text := some "\"date\":\"2026-03-01\",\"partySize\":4" },
        parsedVars := some { time := none, date := some "2026-03-01" } },
    response := some { content := some { text := some "availability-json" } } }

/-- C6 (amended): for an entry that otherwise matches, an active date
(resp. party-size) filter passes the entry iff its raw request body text is
absent or empty, or contains the literal substring pattern; on two
otherwise-matching entries of which only the first contains
`"date":"2026-02-26"`, filtering by that date selects exactly the first. -/
theorem har_filter_spec (e : HarEntry) (fd : String) (p : Int)
    (hshape : entryShapeOk e = true) :
    (fd ≠ "" → (entryMatches fd 0 e = true ↔
        ((entryBodyText e).getD "" = ""
          ∨ strIncludes ((entryBodyText e).getD "") (datePattern fd) = true)))
      ∧ (0 < p → (entryMatches "" p e = true ↔
          ((entryBodyText e).getD "" = ""
            ∨ strIncludes ((entryBodyText e).getD "") (partyPattern p) = true)))
      ∧ harFilter "2026-02-26" 0 [datedEntryA, datedEntryB] = [datedEntryA] := by
  cases hreq : e.request with
  | none =>
      exfalso
      unfold entryShapeOk at hshape
      rw [hreq] at hshape
      simp at hshape
  | some req =>
      unfold entryShapeOk at hshape
      rw [hreq] at hshape
      simp only [Bool.and_eq_true] at hshape
      obtain ⟨⟨hm, hu⟩, hr⟩ := hshape
      have hbody : entryBodyText e = req.postData.bind PostData.text := by
        unfold entryBodyText
        rw [hreq]
        rfl
      refine ⟨?_, ?_, by decide⟩
      · intro hfd
        have hfd' : (fd != "") = true := by simpa using hfd
        have hp0 : (decide ((0 : Int) < 0)) = false := rfl
        unfold entryMatches
        rw [hreq, hbody]
        simp only [hm, hu, hr, hfd', hp0, Bool.true_and, Bool.and_true,
          Bool.false_and, Bool.not_false]
        by_cases hb : (req.postData.bind PostData.text).getD "" = ""
        · simp [hb]
        · have hX : (((req.postData.bind PostData.text).getD "") != "") = true := by
            simpa using hb
          cases hY : strIncludes ((req.postData.bind PostData.text).getD "")
              (datePattern fd) with
          | false => simp [hX, hY, hb]
          | true => simp [hX, hY]
      · intro hp
        have hfd0 : (("" : String) != "") = false := rfl
        have hp' : (decide (0 < p)) = true := by simpa using hp
        unfold entryMatches
        rw [hreq, hbody]
        simp only [hm, hu, hr, hfd0, hp', Bool.true_and, Bool.and_true,
          Bool.false_and, Bool.not_false]
        by_cases hb : (req.postData.bind PostData.text).getD "" = ""
        · simp [hb]
        · have hX : (((req.postData.bind PostData.text).getD "") != "") = true := by
            simpa using hb
          cases hY : strIncludes ((req.postData.bind PostData.text).getD "")
              (partyPattern p) with
          | false => simp [hX, hY, hb]
          | true => simp [hX, hY]

/-- Closed instance of the amended C6: with the date filter "2026-02-26"
active, the entry with the matching body passes. -/
theorem har_filter_spec_witness :
    entryMatches "2026-02-26" 0 datedEntryA = true ↔
        ((entryBodyText datedEntryA).getD "" = ""
          ∨ strIncludes ((entryBodyText datedEntryA).getD "")
              (datePattern "2026-02-26") = true) :=
  (har_filter_spec datedEntryA "2026-02-26" 1 (by decide)).1 (by decide)

/-! ## RequestMutator: the variable merge of `runLiveMode`
(get-availability.ts, lines 293–316) -/

/-- JSON values, as far as the mutated request body carries them. -/
inductive JVal where
  | jnull
  | jbool (b : Bool)
  | jnum (n : Int)
  | jstr (s : String)
  | jarr (elems : List JVal)
  | jobj (fields : List (String × JVal))

/-- One literal key of a JS object spread `{ ...acc, k: v }`: if `k` is
already a key of `acc` its value is replaced in place, otherwise the pair is
appended at the end. -/
def objSet (o : List (String × JVal)) (k : String) (v : JVal) : List (String × JVal) :=
  if o.any (fun p => p.1 == k) then
    o.map (fun p => if p.1 == k then (k, v) else p)
  else o ++ [(k, v)]

/-- The JS object spread `{ ...old, k₁: v₁, ..., kₙ: vₙ }` with literal keys
`upd`. -/
def objSpread (old upd : List (String × JVal)) : List (String × JVal) :=
  upd.foldl (fun acc p => objSet acc p.1 p.2) old

/-- Key lookup in a JS object record (first binding; spreads keep keys
unique). -/
def lookupVar (o : List (String × JVal)) (k : String) : Option JVal :=
  (o.find? (fun p => p.1 == k)).map Prod.snd

structure PersistedQuery where
  version : Int
  sha256Hash : String

structure GqlExtensions where
  persistedQuery : PersistedQuery

/-- The captured request body after `JSON.parse` (the parser is a runtime
builtin): `operationName`, the `variables` record (named `vars` here because
`variables` is reserved in Lean), and `extensions.persistedQuery`. -/
structure GqlBody where
  operationName : String
  vars : List (String × JVal)
  extensions : GqlExtensions

/-- The literal keys of the assignment `body.variables = { ...body.variables,
date, partySize, forwardMinutes: 295, backwardMinutes: 1140,
forwardTimeslots: 20, backwardTimeslots: 76 }`. -/
def newLiveVariables (date : String) (partySize : Int) : List (String × JVal) :=
  [("date", JVal.jstr date), ("partySize", JVal.jnum partySize),
   ("forwardMinutes", JVal.jnum 295), ("backwardMinutes", JVal.jnum 1140),
   ("forwardTimeslots", JVal.jnum 20), ("backwardTimeslots", JVal.jnum 76)]

/-- The whole mutation of `runLiveMode`: only the variables record is
reassigned; `operationName` and `extensions` flow into `JSON.stringify(body)`
untouched. -/
def mutateBody (b : GqlBody) (date : String) (partySize : Int) : GqlBody :=
  { b with vars := objSpread b.vars (newLiveVariables date partySize) }

theorem find?_map_objSet_hit (k : String) (v : JVal) :
    ∀ o : List (String × JVal), o.any (fun p => p.1 == k) = true →
      ((o.map (fun p => if p.1 == k then (k, v) else p)).find? (fun p => p.1 == k))
        = some (k, v) := by
  intro o
  induction o with
  | nil => intro h; simp at h
  | cons p rest ih =>
      intro hany
      rw [List.map_cons]
      by_cases hp : (p.1 == k) = true
      · simp only [hp, if_true]
        exact List.find?_cons_of_pos _ (by simp)
      · have hp' : (p.1 == k) = false := by simpa using hp
        simp only [hp', Bool.false_eq_true, if_false]
        rw [List.find?_cons_of_neg _ (by simpa using hp)]
        refine ih ?_
        simp only [List.any_cons, hp', Bool.false_or] at hany
        exact hany

theorem find?_map_objSet_miss (k : String) (v : JVal) (q : String)
    (hqk : (q == k) = false) :
    ∀ o : List (String × JVal),
      ((o.map (fun p => if p.1 == k then (k, v) else p)).find? (fun p => p.1 == q))
        = o.find? (fun p => p.1 == q) := by
  intro o
  induction o with
  | nil => rfl
  | cons p rest ih =>
      rw [List.map_cons]
      by_cases hp : (p.1 == k) = true
      · have hpk : p.1 = k := by simpa using hp
        have hkq : (k == q) = false := by
          simp only [beq_eq_false_iff_ne] at hqk ⊢
          exact fun h => hqk h.symm
        have hpq : (p.1 == q) = false := by rw [hpk]; exact hkq
        simp only [hp, if_true]
        rw [List.find?_cons_of_neg _ (by simpa using hkq),
          List.find?_cons_of_neg _ (by simpa using hpq)]
        exact ih
      · have hp' : (p.1 == k) = false := by simpa using hp
        simp only [hp', Bool.false_eq_true, if_false]
        cases hq : (p.1 == q) with
        | false =>
            rw [List.find?_cons_of_neg _ (by simpa using hq),
              List.find?_cons_of_neg _ (by simpa using hq)]
            exact ih
        | true =>
            rw [List.find?_cons_of_pos _ (by simpa using hq),
              List.find?_cons_of_pos _ (by simpa using hq)]

theorem find?_append_single (k : String) (v : JVal) (q : String) :
    ∀ o : List (String × JVal),
      (o ++ [(k, v)]).find? (fun p => p.1 == q)
        = match o.find? (fun p => p.1 == q) with
          | some r => some r
          | none => if k == q then some (k, v) else none := by
  intro o
  induction o with
  | nil =>
      simp only [List.nil_append, List.find?_nil]
      cases hq : (k == q) with
      | false =>
          rw [List.find?_cons_of_neg _ (by simpa using hq)]
          simp [hq]
      | true =>
          rw [List.find?_cons_of_pos _ (by simpa using hq)]
          simp [hq]
  | cons p rest ih =>
      rw [List.cons_append]
      cases hq : (p.1 == q) with
      | false =>
          rw [List.find?_cons_of_neg _ (by simpa using hq),
            List.find?_cons_of_neg _ (by simpa using hq), ih]
      | true =>
          rw [List.find?_cons_of_pos _ (by simpa using hq),
            List.find?_cons_of_pos _ (by simpa using hq)]

theorem lookupVar_objSet (o : List (String × JVal)) (k : String) (v : JVal)
    (q : String) :
    lookupVar (objSet o k v) q = if q == k then some v else lookupVar o q := by
  unfold objSet lookupVar
  by_cases ha : o.any (fun p => p.1 == k) = true
  · rw [if_pos ha]
    by_cases hq : (q == k) = true
    · have hqk : q = k := by simpa using hq
      subst hqk
      rw [find?_map_objSet_hit q v o ha]
      simp [hq]
    · have hq' : (q == k) = false := by simpa using hq
      rw [find?_map_objSet_miss k v q hq' o]
      simp [hq']
  · rw [if_neg ha]
    rw [find?_append_single k v q o]
    by_cases hq : (q == k) = true
    · have hqk : q = k := by simpa using hq
      subst hqk
      have hnone : o.find? (fun p => p.1 == q) = none := by
        rw [List.find?_eq_none]
        intro x hx hxq
        exact ha (List.any_eq_true.mpr ⟨x, hx, hxq⟩)
      rw [hnone]
      have hkq : (q == q) = true := by simp
      simp [hq, hkq]
    · have hq' : (q == k) = false := by simpa using hq
      have hkq : (k == q) = false := by
        simp only [beq_eq_false_iff_ne] at hq' ⊢
        exact fun h => hq' h.symm
      cases hf : o.find? (fun p => p.1 == q) with
      | none => simp [hq', hkq, hf]
      | some r => simp [hq', hf]

theorem lookupVar_objSpread (upd : List (String × JVal)) :
    ∀ (old : List (String × JVal)) (k : String),
      (upd.map Prod.fst).Nodup →
      lookupVar (objSpread old upd) k
        = if (upd.map Prod.fst).contains k then lookupVar upd k
          else lookupVar old k := by
  induction upd with
  | nil =>
      intro old k _
      simp [objSpread, lookupVar]
  | cons kv upd' ih =>
      intro old k hnd
      rw [List.map_cons] at hnd
      obtain ⟨hk0, hnd'⟩ := List.nodup_cons.mp hnd
      have hspread : objSpread old (kv :: upd') = objSpread (objSet old kv.1 kv.2) upd' := rfl
      rw [hspread, ih (objSet old kv.1 kv.2) k hnd', List.map_cons]
      by_cases h1 : ((upd'.map Prod.fst).contains k) = true
      · have hkmem : k ∈ upd'.map Prod.fst := by simpa using h1
        have hkk0 : (kv.1 == k) = false := by
          refine beq_eq_false_iff_ne.mpr ?_
          intro he
          exact hk0 (he ▸ hkmem)
        have hc1 : ((kv.1 :: upd'.map Prod.fst).contains k) = true := by
          rw [List.contains_cons, h1, Bool.or_true]
        rw [if_pos h1, if_pos hc1]
        unfold lookupVar
        rw [List.find?_cons_of_neg _ (by simpa using hkk0)]
      · have h1' : ((upd'.map Prod.fst).contains k) = false := by simpa using h1
        by_cases h2 : (k == kv.1) = true
        · have hek : k = kv.1 := by simpa using h2
          have hc2 : ((kv.1 :: upd'.map Prod.fst).contains k) = true := by
            rw [List.contains_cons, h2, Bool.true_or]
          rw [if_neg h1, lookupVar_objSet, if_pos h2, if_pos hc2]
          unfold lookupVar
          rw [List.find?_cons_of_pos _ (by simp [hek])]
          rfl
        · have h2' : (k == kv.1) = false := by simpa using h2
          have hc3 : ((kv.1 :: upd'.map Prod.fst).contains k) = false := by
            rw [List.contains_cons, h1', h2', Bool.or_false]
          rw [if_neg h1, lookupVar_objSet, if_neg h2, if_neg (by rw [hc3]; decide)]

/-- C4: the mutation shallow-merges the new variables into the captured
`variables` record — a new key overrides the captured binding of the same
name, every key not among the new ones keeps its captured value — and the
re-serialized body carries `operationName` and `extensions.persistedQuery`
exactly as captured. -/
theorem mutate_merge_spec (old upd : List (String × JVal)) (k : String)
    (hnd : (upd.map Prod.fst).Nodup) (b : GqlBody) (date : String) (partySize : Int) :
    lookupVar (objSpread old upd) k
        = (if (upd.map Prod.fst).contains k then lookupVar upd k
           else lookupVar old k)
      ∧ (mutateBody b date partySize).operationName = b.operationName
      ∧ (mutateBody b date partySize).extensions.persistedQuery.version
          = b.extensions.persistedQuery.version
      ∧ (mutateBody b date partySize).extensions.persistedQuery.sha256Hash
          = b.extensions.persistedQuery.sha256Hash
      ∧ (mutateBody b date partySize).vars
          = objSpread b.vars (newLiveVariables date partySize) :=
  ⟨lookupVar_objSpread upd old k hnd, rfl, rfl, rfl, rfl⟩

/-- Closed instance of C4: merging `partySize := 4` over a captured record
with bindings for `partySize` and an unrelated key `keep`. -/
theorem mutate_merge_spec_witness :
    lookupVar (objSpread [("partySize", JVal.jnum 2), ("keep", JVal.jstr "x")]
        [("partySize", JVal.jnum 4)]) "keep"
      = (if ([("partySize", JVal.jnum 4)].map Prod.fst).contains "keep"
         then lookupVar [("partySize", JVal.jnum 4)] "keep"
         else lookupVar [("partySize", JVal.jnum 2), ("keep", JVal.jstr "x")] "keep") :=
  (mutate_merge_spec [("partySize", JVal.jnum 2), ("keep", JVal.jstr "x")]
    [("partySize", JVal.jnum 4)] "keep" (by decide)
    { operationName := "RestaurantsAvailability", vars := [],
      extensions := { persistedQuery := { version := 1, sha256Hash := "h" } } }
    "2026-02-26" 4).1

/-- C10: the live mutation always writes the fixed window-sizing constants
`forwardMinutes = 295`, `backwardMinutes = 1140`, `forwardTimeslots = 20`,
`backwardTimeslots = 76` into the variables record, overriding any captured
values of those keys. -/
theorem mutate_window_constants (b : GqlBody) (date : String) (partySize : Int) :
    lookupVar (mutateBody b date partySize).vars "forwardMinutes"
        = some (JVal.jnum 295)
      ∧ lookupVar (mutateBody b date partySize).vars "backwardMinutes"
          = some (JVal.jnum 1140)
      ∧ lookupVar (mutateBody b date partySize).vars "forwardTimeslots"
          = some (JVal.jnum 20)
      ∧ lookupVar (mutateBody b date partySize).vars "backwardTimeslots"
          = some (JVal.jnum 76) := by
  have hb : (mutateBody b date partySize).vars
      = objSpread b.vars (newLiveVariables date partySize) := rfl
  have hnd : ((newLiveVariables date partySize).map Prod.fst).Nodup := by
    show (["date", "partySize", "forwardMinutes", "backwardMinutes",
      "forwardTimeslots", "backwardTimeslots"] : List String).Nodup
    decide
  refine ⟨?_, ?_, ?_, ?_⟩ <;>
    rw [hb, lookupVar_objSpread (newLiveVariables date partySize) b.vars _ hnd] <;>
    rw [if_pos (by rfl)] <;> rfl

/-! ## Live pipeline skeleton of `runLiveMode`
(get-availability.ts, lines 225–359)

Control flow after the browser has been launched, with the outcome of each
external interaction (the capture race, `JSON.parse`, the page lookup, the
replay POST) supplied as an oracle.  Each exit path of the source ends the
run either by `process.exit(1)` after an explicit `await browser.close()`,
by rethrowing after the catch's `await browser.close()`, or through the
`finally \x7b await browser.close() \x7d` of the replay block (a
`process.exit` inside that `try` terminates the process at the explicit
close that precedes it, so the `finally` does not run a second close). -/

inductive LiveOutcome where
  | captureTimeout
  | emptyCapture
  | malformedCapture
  | noPage
  | httpError (status : Int) (body : String)
  | malformedResponse
  | replayThrew
  | success (slots : List DecodedSlot)

inductive LiveEvent where
  | closeBrowser
  | finish (o : LiveOutcome)

/-- Outcomes of the external interactions of one live run. -/
structure LiveEnv where
  captureResult : Option String
  parsedCapture : Option GqlBody
  pageAvailable : Bool
  postResult : Option (Int × String)
  responseParse : Option AvailabilityResponse

/-- `response.ok()`: HTTP status in [200, 299]. -/
def statusOk (s : Int) : Bool := decide (200 ≤ s ∧ s ≤ 299)

/-- `const baseTime = (body.variables.time as string) ?? '19:00'` on the
mutated variables record; an absent `time` yields the default (a captured
non-string `time` would flow through the unchecked cast and crash the
decoder inside the `try`, which the model folds into the default since no
claim depends on that path). -/
def liveBaseTime (vars : List (String × JVal)) : String :=
  match lookupVar vars "time" with
  | some (JVal.jstr t) => t
  | _ => "19:00"

/-- The event trace of `runLiveMode` after a successful browser launch:
every branch of the source that closes the browser and terminates is one
branch here, in source order. -/
def runLiveModel (env : LiveEnv) (date : String) (partySize : Int) : List LiveEvent :=
  match env.captureResult with
  | none => [LiveEvent.closeBrowser, LiveEvent.finish LiveOutcome.captureTimeout]
  | some capturedBody =>
      if capturedBody == "" then
        [LiveEvent.closeBrowser, LiveEvent.finish LiveOutcome.emptyCapture]
      else
        match env.parsedCapture with
        | none => [LiveEvent.closeBrowser, LiveEvent.finish LiveOutcome.malformedCapture]
        | some body =>
            let mutated := mutateBody body date partySize
            if env.pageAvailable = false then
              [LiveEvent.closeBrowser, LiveEvent.finish LiveOutcome.noPage]
            else
              match env.postResult with
              | none => [LiveEvent.closeBrowser, LiveEvent.finish LiveOutcome.replayThrew]
              | some (status, text) =>
                  if statusOk status = false then
                    [LiveEvent.closeBrowser,
                     LiveEvent.finish (LiveOutcome.httpError status text)]
                  else
                    match env.responseParse with
                    | none =>
                        [LiveEvent.closeBrowser,
                         LiveEvent.finish LiveOutcome.malformedResponse]
                    | some res =>
                        [LiveEvent.closeBrowser,
                         LiveEvent.finish (LiveOutcome.success
                           (extractSlots res (liveBaseTime mutated.vars) date))]

/-- C8: on every exit path of the live pipeline — success, capture timeout,
capture-body parse failure, replay HTTP failure or throw, and response parse
failure — the browser is closed exactly once, before the run finishes or the
error propagates: every trace is one `closeBrowser` followed by the final
outcome. -/
theorem live_cleanup_spec (env : LiveEnv) (date : String) (partySize : Int) :
    ∃ o, runLiveModel env date partySize = [LiveEvent.closeBrowser, LiveEvent.finish o] := by
  unfold runLiveModel
  repeat' split
  all_goals exact ⟨_, rfl⟩
